import Mathlib

/-!
Verification of the request-handling core exercised by the axum learning
tests in src/main.rs.  The engine itself (router, path matcher, extractor
set, middleware pipeline, response conversion) is supplied by the axum
framework and is not part of the repository's sources; following the
specification's component design, those parts are modelled from the spec.
Code that does live in src/main.rs (the handlers, log_middleware,
request_id_middleware, AppError and its IntoResponse impl) is embedded
directly from the source.
-/

set_option autoImplicit false
set_option linter.unnecessarySimpa false

namespace RustAxum

/-- HTTP methods used by the exercises. -/
inductive Method where
  | GET
  | POST
  | PUT
  | DELETE
  | PATCH
deriving DecidableEq

def methodName : Method → String
  | .GET => "GET"
  | .POST => "POST"
  | .PUT => "PUT"
  | .DELETE => "DELETE"
  | .PATCH => "PATCH"

/-- A request context: method, path portion of the URI, raw query string,
headers as name/value pairs, and the body as text. -/
structure Request where
  method : Method
  uri : String
  query : String
  headers : List (String × String)
  body : String
deriving DecidableEq

/-- A wire response: status code, headers, body text. -/
structure Response where
  status : Nat
  headers : List (String × String)
  body : String
deriving DecidableEq

/-- Split a character list on a separator character; always returns at
least one (possibly empty) chunk, like the usual split-on semantics. -/
def splitOnChar (c : Char) : List Char → List (List Char)
  | [] => [[]]
  | x :: xs =>
    let r := splitOnChar c xs
    if x = c then [] :: r
    else
      match r with
      | [] => [[x]]
      | y :: ys => (x :: y) :: ys

/-- Modelled from the spec: a path pattern is an ordered sequence of
segments, each a literal, a named capture, or a wildcard (§3, §4.1). -/
inductive Segment where
  | lit (s : String)
  | capture (name : String)
  | wild (name : String)
deriving DecidableEq

def segName : Segment → Option String
  | .lit _ => none
  | .capture n => some n
  | .wild n => some n

/-- Modelled from the spec: parse one pattern segment; `{name}` is a named
capture, `{*name}` a wildcard, anything brace-free a literal; malformed
segments are rejected (§4.1). -/
def parseSegment (cs : List Char) : Option Segment :=
  match cs with
  | '{' :: rest =>
    match rest with
    | '*' :: rest2 =>
      if rest2.getLast? = some '}' ∧ 1 < rest2.length then
        some (.wild (String.mk rest2.dropLast))
      else none
    | _ =>
      if rest.getLast? = some '}' ∧ 1 < rest.length then
        some (.capture (String.mk rest.dropLast))
      else none
  | _ =>
    if cs.contains '{' ∨ cs.contains '}' then none
    else some (.lit (String.mk cs))

/-- Chunks of a slash-separated path, dropping the chunk before a leading
slash. -/
def splitPathChars (cs : List Char) : List String :=
  match (splitOnChar '/' cs).map String.mk with
  | "" :: rest => rest
  | l => l

/-- Modelled from the spec: a single trailing slash is stripped before
segmentation (§4.1). -/
def stripTrailingSlash (cs : List Char) : List Char :=
  match cs.getLast? with
  | some '/' => if 1 < cs.length then cs.dropLast else cs
  | _ => cs

/-- Request-path segmentation. -/
def pathSegments (s : String) : List String :=
  splitPathChars (stripTrailingSlash s.data)

/-- Modelled from the spec: compile a route pattern, rejecting malformed
segments and duplicate parameter names (§4.1). -/
def compile (pattern : String) : Option (List Segment) := do
  let segs ← (splitPathChars pattern.data).mapM
    (fun s => parseSegment s.data)
  if (segs.filterMap segName).Nodup then some segs else none

def joinSep (sep : String) : List String → String
  | [] => ""
  | [x] => x
  | x :: y :: ys => x ++ sep ++ joinSep sep (y :: ys)

/-- Modelled from the spec: exact segment-count matching; literals must
match, named captures bind the literal segment text, a wildcard binds the
remaining suffix (§4.1). -/
def matchSegs : List Segment → List String → Option (List (String × String))
  | [], [] => some []
  | [.wild n], xs => some [(n, joinSep "/" xs)]
  | .lit s :: ps, x :: xs => if x = s then matchSegs ps xs else none
  | .capture n :: ps, x :: xs => (matchSegs ps xs).map (fun b => (n, x) :: b)
  | _, _ => none

/-- Match a compiled pattern against a request path. -/
def matchPattern (compiled : List Segment) (path : String) :
    Option (List (String × String)) :=
  matchSegs compiled (pathSegments path)

/-- The tuple view a handler extracting two path parameters receives: the
bound values in binding order. -/
def pathPair (b : List (String × String)) : Option (String × String) :=
  match b with
  | [(_, a), (_, c)] => some (a, c)
  | _ => none

/-- C2: matching the compiled pattern /products/{id}/categories/{id_category}
against /products/1/categories/2 succeeds, binding id to "1" and
id_category to "2", and a handler extracting a pair of path strings
receives ("1", "2"). -/
theorem path_parameter_bindings :
    ((compile "/products/{id}/categories/{id_category}").bind
        (fun pat => matchPattern pat "/products/1/categories/2"))
      = some [("id", "1"), ("id_category", "2")] ∧
    ((compile "/products/{id}/categories/{id_category}").bind
        (fun pat => matchPattern pat "/products/1/categories/2")).bind pathPair
      = some ("1", "2") := by
  constructor
  · decide
  · decide

/-- Case-insensitive header-name normalisation (HTTP header names compare
case-insensitively). -/
def lowerName (s : String) : String :=
  String.mk (s.data.map Char.toLower)

/-- HeaderMap::insert semantics: replace any existing values for the name,
leaving all other headers untouched. -/
def headersInsert (k v : String) (hs : List (String × String)) :
    List (String × String) :=
  hs.filter (fun p => !(lowerName p.1 == lowerName k)) ++ [(k, v)]

/-- HeaderMap::get semantics: first value stored under the (case-insensitive)
name. -/
def headerGet (hs : List (String × String)) (k : String) : Option String :=
  (hs.find? (fun p => lowerName p.1 == lowerName k)).map Prod.snd

/-- Embeds request_id_middleware from src/main.rs: set the X-Request-Id
header to "12345" and return the request otherwise unchanged. -/
def request_id_middleware (req : Request) : Request :=
  { req with headers := headersInsert "X-Request-Id" "12345" req.headers }

/-- Modelled from the spec: a handler paired with an observable trace of
side effects (the probe of §4.4); the response type is a parameter so that
a panicking handler can be modelled with an Option response. -/
def Handler (ρ : Type) : Type :=
  Request → List String × ρ

/-- Modelled from the spec: a middleware link is a function from request and
continuation to a response (§3, §4.4). -/
def Middleware (ρ : Type) : Type :=
  Request → Handler ρ → List String × ρ

def applyLayer {ρ : Type} (m : Middleware ρ) (h : Handler ρ) : Handler ρ :=
  fun req => m req h

/-- Modelled from the spec: layers are installed outermost-last, so folding
over the installation order wraps each previously built stack (§4.4). -/
def buildPipeline {ρ : Type} (ms : List (Middleware ρ)) (h : Handler ρ) :
    Handler ρ :=
  ms.foldl (fun acc m => applyLayer m acc) h

/-- Modelled from the spec: a probe middleware that records its entry and
exit around the rest of the pipeline (§4.4, §8). -/
def probe {ρ : Type} (l : String) : Middleware ρ :=
  fun req next =>
    let (t, res) := next req
    ((l ++ "-in") :: (t ++ [l ++ "-out"]), res)

/-- Modelled from the spec: axum's map_request shape, a pure request
rewrite always followed by the continuation (§4.4). -/
def map_request {ρ : Type} (f : Request → Request) : Middleware ρ :=
  fun req next => next (f req)

/-- Embeds log_middleware from src/main.rs: log the incoming request, run
the continuation, log the response status (skipped when the inner stack
panicked). -/
def log_middleware : Middleware (Option Response) :=
  fun req next =>
    let (t, res) := next req
    (("receive request " ++ methodName req.method ++ " " ++ req.uri) ::
       (match res with
        | some r => t ++ ["Send response " ++ toString r.status]
        | none => t),
     res)

/-- Embeds the test_middleware handler from src/main.rs: log, read the
X-Request-Id header (unwrap panics when absent, modelled as none), and
answer with method and request id. -/
def middlewareTestHandler : Handler (Option Response) :=
  fun req =>
    (["Execute handler"],
     (headerGet req.headers "X-Request-Id").map
       (fun v => ⟨200, [], "Hello " ++ methodName req.method ++ " " ++ v⟩))

/-- The request the middleware test sends: GET /get with a Cookie header. -/
def middlewareReq : Request :=
  ⟨.GET, "/get", "", [("Cookie", "name=Ekotaro")], ""⟩

lemma buildPipeline_probe (ρ : Type) (ls : List String) (h : Handler ρ)
    (req : Request) :
    buildPipeline (ls.map probe) h req
      = (ls.reverse.map (fun l => l ++ "-in") ++ (h req).1
           ++ ls.map (fun l => l ++ "-out"),
         (h req).2) := by
  induction ls generalizing h with
  | nil => simp [buildPipeline]
  | cons l rest ih =>
    show buildPipeline (rest.map probe) (applyLayer (probe l) h) req = _
    rw [ih (applyLayer (probe l) h)]
    simp [applyLayer, probe, List.map_append, List.append_assoc]

/-- C1: for N probe layers installed in order L1..LN, the recorded order on
a non-short-circuited request is LN-in, ..., L1-in, the handler's own
events, L1-out, ..., LN-out (LIFO wrapping); concretely, the code's stack
of request_id_middleware then log_middleware logs the request first, then
runs the handler, which observes the injected request id. -/
theorem middleware_lifo_order :
    (∀ (ρ : Type) (ls : List String) (h : Handler ρ) (req : Request),
        buildPipeline (ls.map probe) h req
          = (ls.reverse.map (fun l => l ++ "-in") ++ (h req).1
               ++ ls.map (fun l => l ++ "-out"),
             (h req).2)) ∧
    buildPipeline [map_request request_id_middleware, log_middleware]
        middlewareTestHandler middlewareReq
      = (["receive request GET /get", "Execute handler", "Send response 200"],
         some ⟨200, [], "Hello GET 12345"⟩) := by
  constructor
  · exact buildPipeline_probe
  · decide

lemma headerGet_insert_self (k v : String) (hs : List (String × String)) :
    headerGet (headersInsert k v hs) k = some v := by
  unfold headerGet headersInsert
  induction hs with
  | nil => simp
  | cons p rest ih =>
    cases hp : (lowerName p.1 == lowerName k) with
    | true => simpa [List.filter_cons, hp] using ih
    | false => simpa [List.filter_cons, hp, List.find?_cons] using ih

lemma headerGet_insert_other (k v n : String) (hs : List (String × String))
    (hne : lowerName n ≠ lowerName k) :
    headerGet (headersInsert k v hs) n = headerGet hs n := by
  have hkn : (lowerName k == lowerName n) = false :=
    beq_eq_false_iff_ne.mpr (fun h => hne h.symm)
  unfold headerGet headersInsert
  induction hs with
  | nil => simp [hkn]
  | cons p rest ih =>
    cases hpn : (lowerName p.1 == lowerName n) with
    | true =>
      have hpk : (lowerName p.1 == lowerName k) = false := by
        refine beq_eq_false_iff_ne.mpr ?_
        intro h
        exact hne ((eq_of_beq hpn).symm.trans h)
      simp [List.filter_cons, hpk, List.find?_cons, hpn]
    | false =>
      cases hpk : (lowerName p.1 == lowerName k) with
      | true => simpa [List.filter_cons, hpk, List.find?_cons, hpn] using ih
      | false => simpa [List.filter_cons, hpk, List.find?_cons, hpn] using ih

/-- C9: request_id_middleware preserves the method, URI, query and body of
its input, sets X-Request-Id to "12345" (replacing any client-supplied
value), and leaves every other header's lookup unchanged. -/
theorem request_id_frame (req : Request) :
    (request_id_middleware req).method = req.method ∧
    (request_id_middleware req).uri = req.uri ∧
    (request_id_middleware req).query = req.query ∧
    (request_id_middleware req).body = req.body ∧
    headerGet (request_id_middleware req).headers "X-Request-Id"
      = some "12345" ∧
    ∀ n, lowerName n ≠ lowerName "X-Request-Id" →
      headerGet (request_id_middleware req).headers n
        = headerGet req.headers n := by
  refine ⟨rfl, rfl, rfl, rfl, ?_, ?_⟩
  · exact headerGet_insert_self _ _ _
  · intro n hn
    exact headerGet_insert_other _ _ _ _ hn

/-- The request of the middleware test with a client-supplied request id. -/
def clientIdReq : Request :=
  ⟨.GET, "/get", "", [("Accept", "text/plain"), ("X-Request-Id", "client")], ""⟩

/-- C9 witness: on a concrete request carrying Accept and a client-chosen
X-Request-Id, the middleware overwrites the request id with "12345" and
leaves the Accept header observable unchanged. -/
theorem request_id_frame_witness :
    headerGet (request_id_middleware clientIdReq).headers "X-Request-Id"
      = some "12345" ∧
    headerGet (request_id_middleware clientIdReq).headers "Accept"
      = headerGet clientIdReq.headers "Accept" := by
  exact ⟨(request_id_frame clientIdReq).2.2.2.2.1,
    (request_id_frame clientIdReq).2.2.2.2.2 "Accept" (by decide)⟩

/-- Modelled from the spec: the typed failure an extractor can produce
(§3). -/
inductive Rejection where
  | MissingField
  | TypeMismatch
  | DecodeError
  | NotFound
deriving DecidableEq

def rejectionText : Rejection → String
  | .MissingField => "missing field"
  | .TypeMismatch => "type mismatch"
  | .DecodeError => "decode error"
  | .NotFound => "not found"

/-- Modelled from the spec: a required extractor rejection short-circuits
to a 400 response carrying the rejection description (§4.5 table). -/
def rejectionResponse (r : Rejection) : Response :=
  ⟨400, [], rejectionText r⟩

/-- Modelled from the spec: an extractor pulls one typed value out of the
request context or fails with a Rejection (§4.2). -/
def Extractor (α : Type) : Type :=
  Request → Except Rejection α

/-- Split one query pair on the first equals sign. -/
def parseQueryPair (cs : List Char) : String × String :=
  match splitOnChar '=' cs with
  | [] => ("", "")
  | k :: rest => (String.mk k, joinSep "=" (rest.map String.mk))

/-- Modelled from the spec: parse the full query string into key/value
pairs (§4.2). -/
def parseQuery (s : String) : List (String × String) :=
  if s = "" then [] else (splitOnChar '&' s.data).map parseQueryPair

/-- Modelled from the spec: duplicate query keys resolve to the last
occurrence (§4.2). -/
def queryLookup (q : List (String × String)) (k : String) : Option String :=
  (q.reverse.find? (fun p => p.1 == k)).map Prod.snd

/-- Modelled from the spec: query-key extractor, failing with MissingField
when the key is absent (§4.2). -/
def requireQuery (k : String) : Extractor String :=
  fun req =>
    match queryLookup (parseQuery req.query) k with
    | some v => .ok v
    | none => .error .MissingField

/-- Modelled from the spec: header lookup extractor, failing with
MissingField when the header is absent (§4.2). -/
def requireHeader (k : String) : Extractor String :=
  fun req =>
    match headerGet req.headers k with
    | some v => .ok v
    | none => .error .MissingField

/-- Modelled from the spec: dispatch resolves the route's extractor; a
rejection short-circuits to an error response without invoking the handler
(§4.3, §4.5). -/
def handleWith {α : Type} (e : Extractor α) (h : α → Request → Response) :
    Request → Response :=
  fun req =>
    match e req with
    | .ok v => h v req
    | .error r => rejectionResponse r

/-- Modelled from the spec: a handler may request the raw extraction
result; the wrapped extractor then never rejects, handing the rejection
value to the handler instead (§4.2). -/
def wrapResult {α : Type} (e : Extractor α) :
    Extractor (Except Rejection α) :=
  fun req => .ok (e req)

/-- C3: the query string name=Eko parses to exactly the mapping
name ↦ Eko, and whenever a required query key is absent from the request
the dispatch result is the MissingField rejection converted to 400,
independent of the handler (which therefore never runs). -/
theorem query_extraction (req : Request) (k : String)
    (habs : queryLookup (parseQuery req.query) k = none) :
    parseQuery "name=Eko" = [("name", "Eko")] ∧
    ∀ h : String → Request → Response,
      handleWith (requireQuery k) h req
        = rejectionResponse Rejection.MissingField ∧
      (handleWith (requireQuery k) h req).status = 400 := by
  refine ⟨by decide, ?_⟩
  intro h
  have hrun : handleWith (requireQuery k) h req
      = rejectionResponse Rejection.MissingField := by
    simp [handleWith, requireQuery, habs]
  exact ⟨hrun, by rw [hrun]; rfl⟩

/-- A request with no query string and no headers. -/
def bareReq : Request :=
  ⟨.GET, "/get", "", [], ""⟩

/-- C3 witness: on a concrete request with an empty query string, a
handler requiring the name query key is bypassed and the response is the
400 MissingField rejection. -/
theorem query_extraction_witness :
    parseQuery "name=Eko" = [("name", "Eko")] ∧
    handleWith (requireQuery "name")
        (fun v _ => ⟨200, [], "Hello " ++ v⟩) bareReq
      = rejectionResponse Rejection.MissingField := by
  have h := query_extraction bareReq "name" (by rfl)
  exact ⟨h.1, (h.2 (fun v _ => ⟨200, [], "Hello " ++ v⟩)).1⟩

/-- C4: whenever an extractor fails, a handler declaring the wrapped
result receives the rejection value (no short-circuit) and decides its own
response, while a handler declaring the plain type never runs: dispatch
short-circuits to the 400 rejection response. -/
theorem wrapped_result_extraction (α : Type) (e : Extractor α)
    (req : Request) (rej : Rejection)
    (hfail : e req = Except.error rej) :
    (∀ hw : Except Rejection α → Request → Response,
        handleWith (wrapResult e) hw req = hw (Except.error rej) req) ∧
    (∀ h : α → Request → Response,
        handleWith e h req = rejectionResponse rej) ∧
    (rejectionResponse rej).status = 400 := by
  refine ⟨?_, ?_, rfl⟩
  · intro hw
    simp [handleWith, wrapResult, hfail]
  · intro h
    simp [handleWith, hfail]

/-- C4 witness: for the concrete missing-header extraction on a concrete
request, the wrapped handler runs and answers for itself while the plain
handler is bypassed with the 400 rejection response. -/
theorem wrapped_result_extraction_witness :
    handleWith (wrapResult (requireHeader "name"))
        (fun r _ =>
          match r with
          | Except.ok v => ⟨200, [], "Hello " ++ v⟩
          | Except.error e => ⟨200, [], "Error: " ++ rejectionText e⟩)
        bareReq
      = ⟨200, [], "Error: missing field"⟩ ∧
    handleWith (requireHeader "name")
        (fun v _ => ⟨200, [], "Hello " ++ v⟩) bareReq
      = rejectionResponse Rejection.MissingField := by
  have h := wrapped_result_extraction String (requireHeader "name") bareReq
    Rejection.MissingField (by rfl)
  constructor
  · rw [h.1 _]
    rfl
  · exact h.2.1 _

/-- Modelled from the spec: a route maps method and compiled pattern to a
handler taking the path bindings (§3, §4.3). -/
structure Route where
  method : Method
  pattern : List Segment
  handler : List (String × String) → Request → Response

def routeMatches (r : Route) (path : String) : Bool :=
  (matchSegs r.pattern (pathSegments path)).isSome

/-- The routes whose pattern matches a given path, in registration
order. -/
def pathMatching (routes : List Route) (path : String) : List Route :=
  routes.filter (fun r => routeMatches r path)

/-- The Allow header value: every method registered for the path. -/
def allowHeader (rs : List Route) : String :=
  joinSep ", " (rs.map (fun r => methodName r.method))

def notFound : Response :=
  ⟨404, [], ""⟩

def methodNotAllowed (allow : String) : Response :=
  ⟨405, [("allow", allow)], ""⟩

/-- Modelled from the spec: dispatch finds the first route whose method
and pattern match; no pattern match yields 404; a pattern match without a
method match yields 405 with an Allow header of the matching methods
(§4.3). -/
def dispatch (routes : List Route) (req : Request) : Response :=
  let ms := pathMatching routes req.uri
  match ms.find? (fun r => r.method == req.method) with
  | some r =>
    match matchSegs r.pattern (pathSegments req.uri) with
    | some b => r.handler b req
    | none => notFound
  | none =>
    if ms.isEmpty then notFound
    else methodNotAllowed (allowHeader ms)

/-- C5: whenever some registered pattern matches the request path but no
route matching the path carries the request's method, dispatch answers 405
with an Allow header enumerating every method registered for that path. -/
theorem method_mismatch_405 (routes : List Route) (req : Request)
    (hpath : (pathMatching routes req.uri).isEmpty = false)
    (hmethod : (pathMatching routes req.uri).all
        (fun r => !(r.method == req.method)) = true) :
    dispatch routes req
      = methodNotAllowed (allowHeader (pathMatching routes req.uri)) ∧
    (dispatch routes req).status = 405 ∧
    (dispatch routes req).headers
      = [("allow", allowHeader (pathMatching routes req.uri))] := by
  have hfind : (pathMatching routes req.uri).find?
      (fun r => r.method == req.method) = none := by
    refine List.find?_eq_none.mpr ?_
    intro r hr
    have := (List.all_eq_true.mp hmethod) r hr
    simp only [Bool.not_eq_true'] at this
    simp [this]
  have hrun : dispatch routes req
      = methodNotAllowed (allowHeader (pathMatching routes req.uri)) := by
    unfold dispatch
    simp only [hfind, hpath]
    rfl
  exact ⟨hrun, by rw [hrun]; rfl, by rw [hrun]; rfl⟩

/-- The router of the method-routing test: /get registered for GET only. -/
def demoRoutes : List Route :=
  [⟨.GET, [Segment.lit "get"], fun _ _ => ⟨200, [], "Hello, world!"⟩⟩]

/-- A POST request to /get, whose path is registered but only for GET. -/
def demoPostReq : Request :=
  ⟨.POST, "/get", "", [], ""⟩

/-- C5 witness: a POST to /get against a router registering /get only for
GET yields 405 with Allow: GET. -/
theorem method_mismatch_405_witness :
    dispatch demoRoutes demoPostReq = methodNotAllowed "GET" ∧
    (dispatch demoRoutes demoPostReq).status = 405 := by
  have h := method_mismatch_405 demoRoutes demoPostReq (by rfl) (by rfl)
  exact ⟨by rw [h.1]; rfl, h.2.1⟩

/-- Modelled from the spec: the non-body components a handler tuple may
contribute to a response: a status, a header list, or a cookie jar
(§4.5, design note on polymorphic response conversion). -/
inductive RPart where
  | status (n : Nat)
  | headerList (hs : List (String × String))
  | cookieJar (cs : List (String × String))

def RPart.isStatus : RPart → Bool
  | .status _ => true
  | _ => false

/-- Merge one tuple component into the response under construction: a
status overwrites, headers append, cookies append as Set-Cookie headers. -/
def applyPart (r : Response) (p : RPart) : Response :=
  match p with
  | .status n => { r with status := n }
  | .headerList hs => { r with headers := r.headers ++ hs }
  | .cookieJar cs =>
    { r with headers :=
        r.headers ++ cs.map (fun c => ("set-cookie", c.1 ++ "=" ++ c.2)) }

/-- Modelled from the spec: a handler tuple merges its components onto a
response that starts as 200 with the single body; the type only admits one
body, making a second body a build-time shape error rather than a
request-time one (§4.5). -/
def mergeParts (ps : List RPart) (body : String) : Response :=
  ps.foldl applyPart ⟨200, [], body⟩

lemma mergeParts_status_aux (ps : List RPart) (acc : Response)
    (h : ps.all (fun p => !p.isStatus) = true) :
    (ps.foldl applyPart acc).status = acc.status := by
  induction ps generalizing acc with
  | nil => rfl
  | cons p rest ih =>
    simp only [List.all_cons, Bool.and_eq_true] at h
    cases p with
    | status n => simp [RPart.isStatus] at h
    | headerList hs => exact ih _ h.2
    | cookieJar cs => exact ih _ h.2

lemma mergeParts_body_aux (ps : List RPart) (acc : Response) :
    (ps.foldl applyPart acc).body = acc.body := by
  induction ps generalizing acc with
  | nil => rfl
  | cons p rest ih =>
    cases p with
    | status n => exact ih _
    | headerList hs => exact ih _
    | cookieJar cs => exact ih _

/-- C6: merging tuple components defaults the status to 200 when no status
component is given, never touches the single body, accumulates header
components in order, renders a cookie jar with name=Ekotaro as the
Set-Cookie: name=Ekotaro header, and reproduces the concrete
status/headers/JSON-body tuple of the source test. -/
theorem tuple_response_merge (ps : List RPart) (body : String)
    (hnostatus : ps.all (fun p => !p.isStatus) = true) :
    (mergeParts ps body).status = 200 ∧
    (∀ (qs : List RPart) (b : String), (mergeParts qs b).body = b) ∧
    (∀ (hs1 hs2 : List (String × String)) (b : String),
        (mergeParts [RPart.headerList hs1, RPart.headerList hs2] b).headers
          = hs1 ++ hs2) ∧
    mergeParts [RPart.cookieJar [("name", "Ekotaro")]] "Hello Ekotaro"
      = ⟨200, [("set-cookie", "name=Ekotaro")], "Hello Ekotaro"⟩ ∧
    mergeParts
        [RPart.status 200, RPart.headerList [("X-owner", "Ekotaro")]]
        "\x7b\"token\":\"Token\"\x7d"
      = ⟨200, [("X-owner", "Ekotaro")], "\x7b\"token\":\"Token\"\x7d"⟩ := by
  refine ⟨mergeParts_status_aux ps _ hnostatus,
    fun qs b => mergeParts_body_aux qs _, ?_, by decide, by decide⟩
  intro hs1 hs2 b
  simp [mergeParts, applyPart]

/-- C6 witness: a tuple with a single header component and no status
component merges to status 200. -/
theorem tuple_response_merge_witness :
    (mergeParts [RPart.headerList [("X-owner", "Ekotaro")]] "Hello").status
      = 200 := by
  exact (tuple_response_merge [RPart.headerList [("X-owner", "Ekotaro")]]
    "Hello" (by rfl)).1

/-- The value of an i32 truncated to u16, as Rust's as-cast computes it:
the low 16 bits of the two's-complement representation. -/
def toU16 (c : Int) : Nat :=
  (c % 65536).toNat

/-- Embeds struct AppError from src/main.rs: an i32 status code and a
message. -/
structure AppError where
  code : Int
  message : String
deriving DecidableEq

/-- Embeds impl IntoResponse for AppError from src/main.rs: convert with
StatusCode::from_u16(code as u16).unwrap(); from_u16 accepts exactly
100..=999, and unwrap on anything else panics, modelled as none. -/
def AppError.into_response (e : AppError) : Option Response :=
  let s := toU16 e.code
  if 100 ≤ s ∧ s ≤ 999 then some ⟨s, [], e.message⟩ else none

/-- A plain string renders as a 200 response with the string as body. -/
def stringResponse (s : String) : Response :=
  ⟨200, [], s⟩

/-- Modelled from the spec: handler results of the shape Result convert
the Ok value through the normal renderable conversion and the Err value
through the error type's own conversion (§4.5). -/
def resultIntoResponse (r : Except AppError String) : Option Response :=
  match r with
  | .ok s => some (stringResponse s)
  | .error e => e.into_response

/-- Embeds the test_error_handling handler from src/main.rs: POST answers
Ok("OK"), anything else Err(AppError 400 "Bad Request"). -/
def errorHandlingHandler (m : Method) : Except AppError String :=
  if m = Method.POST then .ok "OK"
  else .error ⟨400, "Bad Request"⟩

/-- C7: a Result-returning handler has its Ok value converted by the
normal renderable conversion of the value type and its Err value converted
by the error type's own conversion; concretely the code's handler yields
400 with body Bad Request on GET and 200 with body OK on POST. -/
theorem result_error_conversion :
    (∀ s : String, resultIntoResponse (.ok s) = some (stringResponse s)) ∧
    (∀ e : AppError, resultIntoResponse (.error e) = e.into_response) ∧
    resultIntoResponse (errorHandlingHandler Method.GET)
      = some ⟨400, [], "Bad Request"⟩ ∧
    resultIntoResponse (errorHandlingHandler Method.POST)
      = some ⟨200, [], "OK"⟩ := by
  exact ⟨fun s => rfl, fun e => rfl, by decide, by decide⟩

/-- C10 counterexample: the claim says every negative code panics, but a
negative code whose two's-complement truncation to u16 lands on a valid
status returns a response: code -65336 truncates to 200 and converts. -/
theorem apperror_negative_code_responds :
    (-65336 : Int) < 0 ∧
    AppError.into_response ⟨-65336, "oops"⟩ = some ⟨200, [], "oops"⟩ := by
  exact ⟨by decide, by decide⟩

/-- C10 (amended): AppError conversion is partial; it returns a response,
with status the code truncated to u16 and body the message, exactly when
that truncated value lies in 100..=999, and panics otherwise — so zero and
out-of-range truncations panic, while a negative code converts whenever
its truncation is a valid status. -/
theorem apperror_conversion_domain (e : AppError) :
    ((AppError.into_response e).isSome
      ↔ 100 ≤ toU16 e.code ∧ toU16 e.code ≤ 999) ∧
    ∀ r : Response, AppError.into_response e = some r →
      r.status = toU16 e.code ∧ r.headers = [] ∧ r.body = e.message := by
  constructor
  · unfold AppError.into_response
    by_cases h : 100 ≤ toU16 e.code ∧ toU16 e.code ≤ 999
    · simp [h]
    · simp [h]
  · intro r hr
    unfold AppError.into_response at hr
    by_cases h : 100 ≤ toU16 e.code ∧ toU16 e.code ≤ 999
    · simp only [h, if_true] at hr
      cases hr
      exact ⟨rfl, rfl, rfl⟩
    · simp [h] at hr

/-- C10 witness: the conversion of the code's AppError 400 Bad Request is
defined, and any response it produces carries status 400 = toU16 400 and
the message as body. -/
theorem apperror_conversion_domain_witness :
    (AppError.into_response ⟨400, "Bad Request"⟩).isSome = true ∧
    Response.status ⟨400, [], "Bad Request"⟩ = toU16 (400 : Int) := by
  constructor
  · exact ((apperror_conversion_domain ⟨400, "Bad Request"⟩).1.mpr
      (by decide))
  · exact ((apperror_conversion_domain ⟨400, "Bad Request"⟩).2
      ⟨400, [], "Bad Request"⟩ (by decide)).1

/-- Scan a JSON string body up to its closing quote (the exercised values
contain no escapes). -/
def scanString : List Char → Option (String × List Char)
  | [] => none
  | c :: cs =>
    if c = '"' then some ("", cs)
    else (scanString cs).map (fun r => (String.mk (c :: r.1.data), r.2))

/-- Modelled from the spec: the JSON codec capability for flat objects of
string fields, fuelled by the input length (§6). -/
def scanPairs : Nat → List Char → Option (List (String × String) × List Char)
  | 0, _ => none
  | fuel + 1, cs =>
    match cs with
    | '"' :: rest => do
      let (k, rest1) ← scanString rest
      match rest1 with
      | ':' :: '"' :: rest2 => do
        let (v, rest3) ← scanString rest2
        match rest3 with
        | ',' :: rest4 =>
          (scanPairs fuel rest4).map (fun r => ((k, v) :: r.1, r.2))
        | '}' :: rest4 => some ([(k, v)], rest4)
        | _ => none
      | _ => none
    | _ => none

/-- Modelled from the spec: decode a flat JSON object of string fields
into its key/value pairs, or fail (§6). -/
def parseFlatJson (s : String) : Option (List (String × String)) :=
  match s.data with
  | '{' :: rest =>
    match scanPairs s.data.length rest with
    | some (ps, []) => some ps
    | _ => none
  | _ => none

/-- Embeds struct LoginRequest from src/main.rs. -/
structure LoginRequest where
  username : String
  password : String
deriving DecidableEq

/-- Embeds struct LoginResponse from src/main.rs. -/
structure LoginResponse where
  token : String
deriving DecidableEq

/-- Decode a JSON body into LoginRequest: both fields are required. -/
def decodeLoginRequest (s : String) : Option LoginRequest := do
  let kvs ← parseFlatJson s
  match kvs.find? (fun p => p.1 == "username"),
      kvs.find? (fun p => p.1 == "password") with
  | some u, some p => some ⟨u.2, p.2⟩
  | _, _ => none

/-- Encode LoginResponse the way serde_json renders it. -/
def encodeLoginResponse (r : LoginResponse) : String :=
  "\x7b\"token\":\"" ++ r.token ++ "\"\x7d"

/-- Embeds the test_body_json handler from src/main.rs. -/
def bodyJsonHandler (r : LoginRequest) : String :=
  "Hello " ++ r.username

/-- Embeds the test_response_json handler from src/main.rs. -/
def responseJsonHandler : LoginResponse :=
  ⟨"Token"⟩

/-- C8: the JSON body with username Ekotaro and password Password decodes
into the two-field LoginRequest record, the handler downstream sees
username Ekotaro, and encoding the handler-returned LoginResponse with
token Token renders exactly the text of a one-field JSON object. -/
theorem json_round_trip :
    decodeLoginRequest
        "\x7b\"username\":\"Ekotaro\",\"password\":\"Password\"\x7d"
      = some ⟨"Ekotaro", "Password"⟩ ∧
    (decodeLoginRequest
        "\x7b\"username\":\"Ekotaro\",\"password\":\"Password\"\x7d").map
        bodyJsonHandler
      = some "Hello Ekotaro" ∧
    encodeLoginResponse responseJsonHandler = "\x7b\"token\":\"Token\"\x7d" := by
  exact ⟨by decide, by decide, by decide⟩

end RustAxum

